import Mathlib

/-!
Shallow embedding of the classification-and-ranking pipeline of
analyze_polymarket_problems.py (class PolymarketProblemAnalyzer).

Modelling conventions:
- a pandas cell that may be NaN/None is an Option String; none models a
  null cell (pd.isna), some s a present string (note that pd.isna of the
  empty string is False, so some "" is a present, empty text);
- Python float compound scores are rationals;
- Python `needle in hay` on str is raw substring containment on the
  character list;
- str.lower() is modelled by lowering every character with Char.toLower
  (ASCII case folding; every string occurring in the configuration and
  the tests is ASCII);
- Counter insertion order (first occurrence of each key) is kept
  explicitly, and Counter.most_common / Series.nsmallest / sorted are
  stable sorts, modelled with List.insertionSort, which is stable.
-/

/-- Test whether the needle occurs at the head of the haystack. -/
def matchAt : List Char → List Char → Bool
  | [], _ => true
  | _ :: _, [] => false
  | a :: as, b :: bs => a == b && matchAt as bs

/-- Test whether the needle occurs as a contiguous sublist of the haystack. -/
def hasSub (needle : List Char) : List Char → Bool
  | [] => matchAt needle []
  | b :: bs => matchAt needle (b :: bs) || hasSub needle bs

/-- Python `needle in hay` for str operands: raw substring containment. -/
def strContains (hay needle : String) : Bool :=
  hasSub needle.data hay.data

/-- Python str.lower: lowercase every character (ASCII case folding),
defined on the character list so that it evaluates by kernel reduction. -/
def lowerStr (s : String) : String := ⟨s.data.map Char.toLower⟩

/-- ASCII apostrophe, written by code point to keep source plain. -/
def apos : String := (Char.ofNat 39).toString

/-- Field self.problem_keywords of the analyzer, in source order. -/
def problem_keywords : List String :=
  ["problem", "issue", "error", "bug", "broken", "not working", "failed", "failure",
   "cant", "cannot", "won" ++ apos ++ "t", "doesn" ++ apos ++ "t work", "stuck", "help", "fix", "trouble",
   "difficult", "hard", "complicated", "confusing", "frustrated", "annoying",
   "slow", "laggy", "crash", "frozen", "glitch", "wrong", "incorrect", "missing",
   "lost", "scam", "fraud", "withdraw", "withdrawal", "locked", "banned", "suspended"]

/-- Field self.problem_categories of the analyzer: the category taxonomy,
in the source dict order, each category with its keyword list. -/
def problem_categories : List (String × List String) :=
  [("withdrawal", ["withdraw", "withdrawal", "cash out", "payout", "transfer out", "cant withdraw"]),
   ("deposit", ["deposit", "fund", "add money", "cant deposit", "payment failed"]),
   ("ui_ux", ["confusing", "hard to use", "interface", "ui", "ux", "design", "navigation", "find"]),
   ("fees", ["fee", "fees", "expensive", "cost", "charge", "high fee"]),
   ("liquidity", ["liquidity", "spread", "slippage", "no orders", "volume", "cant sell", "cant buy"]),
   ("speed", ["slow", "laggy", "loading", "pending", "delay", "wait", "taking forever"]),
   ("kyc_verification", ["kyc", "verify", "verification", "identity", "id", "rejected"]),
   ("market_resolution", ["resolution", "resolve", "outcome", "result", "payout", "settled"]),
   ("polygon_network", ["polygon", "matic", "network", "gas", "transaction failed", "metamask"]),
   ("customer_support", ["support", "customer service", "no response", "help", "contact", "ticket"])]

/-- One input record: the columns of the data frame the core reads. -/
structure Post where
  platform : String
  full_text : Option String
  deriving DecidableEq

/-- Inner function contains_problem of identify_problem_posts: null text is
False (pd.isna), otherwise any problem keyword as substring of the
lowercased text. -/
def contains_problem (text : Option String) : Bool :=
  match text with
  | none => false
  | some t =>
    let text_lower := lowerStr t
    problem_keywords.any (fun keyword => strContains text_lower keyword)

/-- Inner function get_vader_sentiment of analyze_sentiment, parameterized
by the external VADER scorer. The code returns a neutral score dict for a
null cell and otherwise calls self.vader.polarity_scores; we keep the
compound component together with a flag recording whether the external
scorer was invoked. -/
def get_vader_sentiment (scorer : String → ℚ) (text : Option String) : ℚ × Bool :=
  match text with
  | none => (0, false)
  | some t => (scorer t, true)

/-- Inner function classify_sentiment of analyze_sentiment. -/
def classify_sentiment (compound : ℚ) : String :=
  if compound ≥ 5/100 then "positive"
  else if compound ≤ -(5/100) then "negative"
  else "neutral"

/-- Inner function find_categories of categorize_problems: null text gives
no categories, otherwise every taxonomy category whose keyword list has a
match in the lowercased text, in taxonomy order. -/
def find_categories (text : Option String) : List String :=
  match text with
  | none => []
  | some t =>
    let text_lower := lowerStr t
    (problem_categories.filter
      (fun ck => ck.2.any (fun keyword => strContains text_lower keyword))).map (fun ck => ck.1)

/-- One row of the problem data frame after the sentiment and
categorization stages added their columns. -/
structure Row where
  platform : String
  full_text : Option String
  sentiment_compound : ℚ
  sentiment : String
  problem_categories : List String
  deriving DecidableEq

/-- The per-row work of analyze_sentiment and categorize_problems: attach
the compound score, the derived label and the category list to a post. -/
def processPost (scorer : String → ℚ) (p : Post) : Row :=
  let compound := (get_vader_sentiment scorer p.full_text).1
  { platform := p.platform
    full_text := p.full_text
    sentiment_compound := compound
    sentiment := classify_sentiment compound
    problem_categories := find_categories p.full_text }

/-- Method identify_problem_posts: filters the frame to rows whose text
contains a problem keyword. Its progress print divides by len(self.df),
so a present but empty data frame raises ZeroDivisionError before the
filtered frame is returned; the error branch models that exception. -/
def identify_problem_posts (posts : List Post) : Except Unit (List Post) :=
  let problem_posts := posts.filter (fun p => contains_problem p.full_text)
  if posts.length = 0 then Except.error () else Except.ok problem_posts

/-- The flattening loop of categorize_problems building all_categories. -/
def all_categories (rows : List Row) : List String :=
  rows.flatMap (fun r => r.problem_categories)

/-- Distinct keys of a list in order of first occurrence: the key order of
a collections.Counter built from the list. -/
def firstKeys : List String → List String
  | [] => []
  | x :: xs => x :: (firstKeys xs).filter (fun y => y ≠ x)

/-- Counter(l) as an association list: keys in insertion order, each with
its number of occurrences. -/
def counterItems (l : List String) : List (String × Nat) :=
  (firstKeys l).map (fun k => (k, l.count k))

/-- Comparator of Counter.most_common: a comes no later than b when the
count of b is at most the count of a. Ties leave insertion order intact
because the sort is stable. -/
def countGE (a b : String × Nat) : Prop := b.2 ≤ a.2

instance : DecidableRel countGE :=
  fun a b => inferInstanceAs (Decidable (b.2 ≤ a.2))

instance : IsTotal (String × Nat) countGE :=
  ⟨fun a b => Nat.le_total b.2 a.2⟩

instance : IsTrans (String × Nat) countGE :=
  ⟨fun _ _ _ h1 h2 => Nat.le_trans h2 h1⟩

/-- Counter.most_common(n): stable sort by descending count, first n items. -/
def most_common (counter : List (String × Nat)) (n : Nat) : List (String × Nat) :=
  (List.insertionSort countGE counter).take n

/-- Comparator of DataFrame.nsmallest on the sentiment_compound column. -/
def compoundLE (a b : Row) : Prop := a.sentiment_compound ≤ b.sentiment_compound

instance : DecidableRel compoundLE :=
  fun a b => inferInstanceAs (Decidable (a.sentiment_compound ≤ b.sentiment_compound))

instance : IsTotal Row compoundLE :=
  ⟨fun a b => le_total a.sentiment_compound b.sentiment_compound⟩

instance : IsTrans Row compoundLE :=
  ⟨fun _ _ _ h1 h2 => le_trans h1 h2⟩

/-- DataFrame.nsmallest(3, sentiment_compound) with the default keep=first:
stable ascending sort on the column, first three rows. -/
def nsmallest3 (rows : List Row) : List Row :=
  (List.insertionSort compoundLE rows).take 3

/-- Series.value_counts().to_dict() on the platform column: occurrence
counts per distinct value, ordered by descending count. -/
def value_counts (l : List String) : List (String × Nat) :=
  List.insertionSort countGE (counterItems l)

/-- One element of the top_problems list built by extract_top_problems. -/
structure RankedProblem where
  rank : Nat
  category : String
  count : Nat
  percentage : ℚ
  avg_sentiment : ℚ
  sample_complaints : List (Option String)
  platforms : List (String × Nat)
  deriving DecidableEq

/-- Method extract_top_problems: enumerate most_common(top_n) from 1 and
build one record per selected category. -/
def extract_top_problems (problem_rows : List Row) (category_counts : List (String × Nat))
    (top_n : Nat) : List RankedProblem :=
  (List.enumFrom 1 (most_common category_counts top_n)).map (fun ic =>
    let category := ic.2.1
    let count := ic.2.2
    let category_posts := problem_rows.filter (fun r => decide (category ∈ r.problem_categories))
    let avg_sentiment :=
      ((category_posts.map (fun r => r.sentiment_compound)).sum) / (category_posts.length : ℚ)
    let negative_posts := nsmallest3 (category_posts.filter (fun r => r.sentiment == "negative"))
    { rank := ic.1
      category := category
      count := count
      percentage := ((count : ℚ) / (problem_rows.length : ℚ)) * 100
      avg_sentiment := avg_sentiment
      sample_complaints := negative_posts.map (fun r => r.full_text)
      platforms := value_counts (category_posts.map (fun r => r.platform)) })

/-- The problem rows the pipeline hands to extract_top_problems: the posts
passing the problem filter, annotated with sentiment and categories. -/
def problemRows (scorer : String → ℚ) (posts : List Post) : List Row :=
  (posts.filter (fun p => contains_problem p.full_text)).map (processPost scorer)

/-- The composition run_full_analysis applies to a non-empty batch after
the problem filter: annotate the problem posts, count category mentions,
rank. -/
def rank_pipeline (scorer : String → ℚ) (posts : List Post) (top_n : Nat) :
    List RankedProblem :=
  extract_top_problems (problemRows scorer posts)
    (counterItems (all_categories (problemRows scorer posts))) top_n

/-- Fixed scorer used by the concrete checks: one score per sample text. -/
def wscorer : String → ℚ := fun t =>
  if t == "withdraw is broken, cant withdraw my funds" then -(6/10)
  else if t == "the ui is so confusing" then -(2/10)
  else -(8/10)

/-- Fixed input batch used by the concrete checks. -/
def wposts : List Post :=
  [{ platform := "reddit", full_text := some "withdraw is broken, cant withdraw my funds" },
   { platform := "twitter", full_text := some "the ui is so confusing" },
   { platform := "reddit", full_text := some "withdraw failed again, scam" }]

/-- The first entry rank_pipeline produces on wposts with wscorer. -/
def wE1 : RankedProblem :=
  { rank := 1
    category := "withdrawal"
    count := 2
    percentage := 200/3
    avg_sentiment := -(7/10)
    sample_complaints :=
      [some "withdraw failed again, scam",
       some "withdraw is broken, cant withdraw my funds"]
    platforms := [("reddit", 2)] }

/-! ### General lemmas about the embedded operations -/

theorem mem_of_mem_firstKeys {x : String} : ∀ {l : List String}, x ∈ firstKeys l → x ∈ l
  | a :: as, h => by
    rcases List.mem_cons.mp h with h | h
    · exact h ▸ List.mem_cons_self a as
    · exact List.mem_cons_of_mem a (mem_of_mem_firstKeys (List.mem_of_mem_filter h))

theorem mem_firstKeys_of_mem {x : String} : ∀ {l : List String}, x ∈ l → x ∈ firstKeys l
  | a :: as, h => by
    by_cases hx : x = a
    · exact hx ▸ List.mem_cons_self a _
    · rcases List.mem_cons.mp h with h | h
      · exact absurd h hx
      · exact List.mem_cons_of_mem a
          (List.mem_filter.mpr ⟨mem_firstKeys_of_mem h, by simpa using hx⟩)

theorem mem_firstKeys_iff {x : String} {l : List String} : x ∈ firstKeys l ↔ x ∈ l :=
  ⟨mem_of_mem_firstKeys, mem_firstKeys_of_mem⟩

theorem firstKeys_nodup : ∀ l : List String, (firstKeys l).Nodup
  | [] => List.nodup_nil
  | a :: as => by
    refine List.nodup_cons.mpr ⟨fun h => ?_, (firstKeys_nodup as).filter _⟩
    have := (List.mem_filter.mp h).2
    simp at this

theorem mem_counterItems {l : List String} {q : String × Nat} (h : q ∈ counterItems l) :
    q.1 ∈ l ∧ q.2 = l.count q.1 := by
  obtain ⟨k, hk, hq⟩ := List.mem_map.mp h
  cases hq
  exact ⟨mem_of_mem_firstKeys hk, rfl⟩

theorem counterItems_snd_sum (l : List String) :
    ((counterItems l).map (fun q => q.2)).sum = l.length := by
  have hperm : (firstKeys l).Perm l.dedup :=
    (List.perm_ext_iff_of_nodup (firstKeys_nodup l) l.nodup_dedup).mpr
      (fun a => by rw [mem_firstKeys_iff, List.mem_dedup])
  have : ((counterItems l).map (fun q => q.2)) = (firstKeys l).map (fun k => l.count k) := by
    simp [counterItems, List.map_map, Function.comp]
  rw [this, (hperm.map (fun k => l.count k)).sum_eq]
  exact List.sum_map_count_dedup_eq_length l

theorem value_counts_snd_sum (l : List String) :
    ((value_counts l).map (fun q => q.2)).sum = l.length := by
  have h : (value_counts l).Perm (counterItems l) := List.perm_insertionSort countGE _
  rw [(h.map (fun q => q.2)).sum_eq]
  exact counterItems_snd_sum l

theorem nodup_count_eq {L : List String} (hn : L.Nodup) (c : String) :
    L.count c = if c ∈ L then 1 else 0 := by
  split
  · exact le_antisymm (List.nodup_iff_count_le_one.mp hn c)
      (List.count_pos_iff.mpr (by assumption))
  · exact List.count_eq_zero_of_not_mem (by assumption)

theorem count_all_categories {c : String} :
    ∀ {rows : List Row}, (∀ r ∈ rows, r.problem_categories.Nodup) →
      (all_categories rows).count c
        = rows.countP (fun r => decide (c ∈ r.problem_categories))
  | [], _ => rfl
  | r :: rows, h => by
    have hr : r.problem_categories.Nodup := h r (List.mem_cons_self r rows)
    have ih := @count_all_categories c rows (fun x hx => h x (List.mem_cons_of_mem r hx))
    have hflat : all_categories (r :: rows) = r.problem_categories ++ all_categories rows := rfl
    rw [hflat, List.count_append, List.countP_cons, ih, nodup_count_eq hr c]
    by_cases hm : c ∈ r.problem_categories <;> simp [hm, Nat.add_comm]

theorem find_categories_nodup (t : Option String) : (find_categories t).Nodup := by
  cases t with
  | none => exact List.nodup_nil
  | some s =>
    have hkeys : (problem_categories.map (fun ck => ck.1)).Nodup := by decide
    unfold find_categories
    exact hkeys.sublist
      (List.Sublist.map (fun ck : String × List String => ck.1) (List.filter_sublist _))

theorem pipeline_rows_nodup (scorer : String → ℚ) (posts : List Post) :
    ∀ r ∈ problemRows scorer posts, r.problem_categories.Nodup := by
  intro r hr
  obtain ⟨p, _, rfl⟩ := List.mem_map.mp hr
  exact find_categories_nodup p.full_text

theorem keywords_lower :
    ∀ ck ∈ problem_categories, ∀ kw ∈ ck.2, lowerStr kw = kw := by decide

/-- Stability of orderedInsert under a filter, when the inserted element is
related to every element the filter keeps. -/
theorem filter_orderedInsert (p : (String × Nat) → Bool) (x : String × Nat)
    (hx : ∀ y, p x = true → p y = true → countGE x y) :
    ∀ L : List (String × Nat),
      (List.orderedInsert countGE x L).filter p
        = if p x then x :: L.filter p else L.filter p
  | [] => by
    by_cases h : p x <;> simp [List.orderedInsert, List.filter_cons, h]
  | y :: ys => by
    by_cases hxy : countGE x y
    · by_cases h : p x <;>
        simp [List.orderedInsert, if_pos hxy, List.filter_cons, h]
    · have ih := filter_orderedInsert p x hx ys
      by_cases hpx : p x
      · by_cases hpy : p y
        · exact absurd (hx y hpx hpy) hxy
        · simp [List.orderedInsert, if_neg hxy, List.filter_cons, hpx, hpy, ih]
      · by_cases hpy : p y <;>
          simp [List.orderedInsert, if_neg hxy, List.filter_cons, hpx, hpy, ih]

/-- Stability of the stable sort behind most_common: filtering to any one
count value returns the same subsequence as in the unsorted input. -/
theorem filter_insertionSort_countGE (p : (String × Nat) → Bool)
    (hp : ∀ a b, p a = true → p b = true → countGE a b) :
    ∀ l : List (String × Nat),
      (List.insertionSort countGE l).filter p = l.filter p
  | [] => rfl
  | a :: l => by
    have ih := filter_insertionSort_countGE p hp l
    have h := filter_orderedInsert p a (fun y => hp a y) (List.insertionSort countGE l)
    by_cases hpa : p a <;>
      simp [List.insertionSort, h, hpa, ih, List.filter_cons]

theorem extract_map_catcount (rows : List Row) (counter : List (String × Nat)) (n : Nat) :
    (extract_top_problems rows counter n).map (fun e => (e.category, e.count))
      = most_common counter n := by
  unfold extract_top_problems
  rw [List.map_map]
  exact List.enumFrom_map_snd 1 (most_common counter n)

theorem extract_length (rows : List Row) (counter : List (String × Nat)) (n : Nat) :
    (extract_top_problems rows counter n).length = min n counter.length := by
  unfold extract_top_problems most_common
  rw [List.length_map, List.enumFrom_length, List.length_take, List.length_insertionSort]

theorem extract_map_rank (rows : List Row) (counter : List (String × Nat)) (n : Nat) :
    (extract_top_problems rows counter n).map (fun e => e.rank)
      = List.range' 1 (extract_top_problems rows counter n).length := by
  unfold extract_top_problems
  rw [List.map_map, List.length_map, List.enumFrom_length]
  exact List.enumFrom_map_fst 1 (most_common counter n)

theorem snd_mem_of_mem_enumFrom {α : Type} {ic : Nat × α} {n : Nat} {l : List α}
    (h : ic ∈ List.enumFrom n l) : ic.2 ∈ l := by
  have h2 := List.mem_map_of_mem Prod.snd h
  rwa [List.enumFrom_map_snd] at h2

theorem mem_most_common {counter : List (String × Nat)} {n : Nat} {q : String × Nat}
    (h : q ∈ most_common counter n) : q ∈ counter := by
  unfold most_common at h
  exact (List.perm_insertionSort countGE counter).mem_iff.mp (List.mem_of_mem_take h)

theorem mem_extract_elim {rows : List Row} {counter : List (String × Nat)} {n : Nat}
    {e : RankedProblem} (he : e ∈ extract_top_problems rows counter n) :
    ∃ ic : Nat × (String × Nat), ic ∈ List.enumFrom 1 (most_common counter n) ∧
      e = { rank := ic.1
            category := ic.2.1
            count := ic.2.2
            percentage := ((ic.2.2 : ℚ) / (rows.length : ℚ)) * 100
            avg_sentiment :=
              (((rows.filter (fun r => decide (ic.2.1 ∈ r.problem_categories))).map
                  (fun r => r.sentiment_compound)).sum)
                / (((rows.filter (fun r => decide (ic.2.1 ∈ r.problem_categories))).length : ℚ))
            sample_complaints :=
              (nsmallest3 ((rows.filter (fun r => decide (ic.2.1 ∈ r.problem_categories))).filter
                  (fun r => r.sentiment == "negative"))).map (fun r => r.full_text)
            platforms :=
              value_counts ((rows.filter (fun r => decide (ic.2.1 ∈ r.problem_categories))).map
                  (fun r => r.platform)) } := by
  unfold extract_top_problems at he
  obtain ⟨ic, hic, h⟩ := List.mem_map.mp he
  exact ⟨ic, hic, h.symm⟩

/-! ### Claim theorems -/

/-- C2: the code evaluated at the edge cases of the claim. On the empty
input batch identify_problem_posts raises (ZeroDivisionError in its
progress print); on a non-empty batch with no problem post the filter
yields the empty set without error, and ranking an empty problem-post set
with any top_n returns the empty list. -/
theorem C2_empty_cases :
    identify_problem_posts [] = Except.error () ∧
    (∀ n : Nat, extract_top_problems [] [] n = []) ∧
    (∀ scorer : String → ℚ, ∀ n : Nat,
      rank_pipeline scorer [{ platform := "reddit", full_text := some "great product" }] n = []) ∧
    identify_problem_posts [{ platform := "reddit", full_text := some "great product" }]
      = Except.ok [] := by
  have hng : contains_problem (some "great product") = false := by decide
  refine ⟨rfl, fun n => ?_, fun scorer n => ?_, ?_⟩
  · unfold extract_top_problems most_common
    simp
  · unfold rank_pipeline problemRows
    simp [hng, all_categories, counterItems, firstKeys, extract_top_problems, most_common]
  · unfold identify_problem_posts
    simp [hng]

/-- C3, counterexample: the claim says a null or empty text gets the
neutral default 0.0 without invoking the scorer, but the code only
special-cases null (pd.isna of the empty string is False): on the empty
string the scorer is invoked and its value is returned. -/
theorem C3_counterexample :
    ¬ ∀ scorer : String → ℚ,
        (get_vader_sentiment scorer (some "")).1 = 0
          ∧ (get_vader_sentiment scorer (some "")).2 = false := by
  intro h
  have h1 := (h (fun _ => 1)).1
  norm_num [get_vader_sentiment] at h1

/-- C3, amended: only for null text does the sentiment stage substitute
the neutral default 0.0 without invoking the external scorer (and this is
not an error); any present text, the empty string included, is passed to
the scorer. -/
theorem C3_null_default (scorer : String → ℚ) :
    get_vader_sentiment scorer none = (0, false) ∧
    ∀ t : String, get_vader_sentiment scorer (some t) = (scorer t, true) :=
  ⟨rfl, fun _ => rfl⟩

/-- C4: the derived label is negative iff compound is at most -0.05,
positive iff compound is at least 0.05, neutral otherwise; the boundary
values -0.05 and 0.05 fall in the negative and positive branches, and 0.0
and 0.049 are neutral. -/
theorem C4_label_thresholds :
    (∀ c : ℚ, classify_sentiment c = "negative" ↔ c ≤ -(5/100)) ∧
    (∀ c : ℚ, classify_sentiment c = "positive" ↔ c ≥ 5/100) ∧
    (∀ c : ℚ, classify_sentiment c = "neutral" ↔ (-(5/100) < c ∧ c < 5/100)) ∧
    classify_sentiment (-(5/100)) = "negative" ∧
    classify_sentiment (5/100) = "positive" ∧
    classify_sentiment 0 = "neutral" ∧
    classify_sentiment (49/1000) = "neutral" := by
  have hneg : ∀ c : ℚ, classify_sentiment c = "negative" ↔ c ≤ -(5/100) := by
    intro c
    unfold classify_sentiment
    split_ifs with h1 h2
    · exact iff_of_false (by decide) (by intro h; linarith)
    · exact iff_of_true rfl h2
    · exact iff_of_false (by decide) h2
  have hpos : ∀ c : ℚ, classify_sentiment c = "positive" ↔ c ≥ 5/100 := by
    intro c
    unfold classify_sentiment
    split_ifs with h1 h2
    · exact iff_of_true rfl h1
    · exact iff_of_false (by decide) h1
    · exact iff_of_false (by decide) h1
  have hneu : ∀ c : ℚ, classify_sentiment c = "neutral" ↔ (-(5/100) < c ∧ c < 5/100) := by
    intro c
    unfold classify_sentiment
    split_ifs with h1 h2
    · exact iff_of_false (by decide) (fun h => absurd h.2 (not_lt.mpr h1))
    · exact iff_of_false (by decide) (fun h => absurd h.1 (not_lt.mpr h2))
    · exact iff_of_true rfl ⟨not_le.mp h2, not_le.mp h1⟩
  refine ⟨hneg, hpos, hneu, ?_, ?_, ?_, ?_⟩
  · exact (hneg _).mpr le_rfl
  · exact (hpos _).mpr le_rfl
  · exact (hneu _).mpr (by norm_num)
  · exact (hneu _).mpr (by norm_num)

/-- C7: the problem gate returns true iff the lowercased text contains at
least one configured problem keyword as a substring; null and empty text
give false, with no error possible (the function is total). -/
theorem C7_problem_gate :
    contains_problem none = false ∧
    contains_problem (some "") = false ∧
    ∀ s : String, contains_problem (some s) = true
      ↔ ∃ kw ∈ problem_keywords, strContains (lowerStr s) kw = true := by
  refine ⟨rfl, by decide, fun s => ?_⟩
  unfold contains_problem
  exact List.any_eq_true

/-- C1, counterexample: with two problem posts carrying one category each,
both categories have count 1 yet the ranked order is [withdrawal, deposit]
although deposit is alphabetically smaller, and reversing the input order
reverses the tie order: the tie-break is not alphabetical and the output
depends on the iteration order of the input. -/
theorem C1_counterexample :
    (rank_pipeline (fun _ => 0)
        [{ platform := "reddit", full_text := some "cant withdraw" },
         { platform := "reddit", full_text := some "cant deposit" }] 5).map
        (fun e => (e.category, e.count)) = [("withdrawal", 1), ("deposit", 1)] ∧
    (rank_pipeline (fun _ => 0)
        [{ platform := "reddit", full_text := some "cant deposit" },
         { platform := "reddit", full_text := some "cant withdraw" }] 5).map
        (fun e => (e.category, e.count)) = [("deposit", 1), ("withdrawal", 1)] ∧
    "deposit" < "withdrawal" ∧
    ¬ ((rank_pipeline (fun _ => 0)
        [{ platform := "reddit", full_text := some "cant withdraw" },
         { platform := "reddit", full_text := some "cant deposit" }] 5).Pairwise
          (fun a b => b.count < a.count ∨ (a.count = b.count ∧ a.category < b.category))) := by
  have hmap1 : (rank_pipeline (fun _ => 0)
      [{ platform := "reddit", full_text := some "cant withdraw" },
       { platform := "reddit", full_text := some "cant deposit" }] 5).map
      (fun e => (e.category, e.count)) = [("withdrawal", 1), ("deposit", 1)] := by decide
  refine ⟨hmap1, by decide, ?_, ?_⟩
  · rw [String.lt_iff_toList_lt]
    decide
  · intro hpw
    have hpw2 := (@List.pairwise_map RankedProblem (String × Nat)
      (fun e => (e.category, e.count))
      (fun a b => b.2 < a.2 ∨ (a.2 = b.2 ∧ a.1 < b.1)) _).mpr hpw
    rw [hmap1] at hpw2
    have hrel := (List.pairwise_cons.mp hpw2).1 ("deposit", 1)
      (List.mem_cons_self ("deposit", 1) [])
    rcases hrel with h | h
    · exact absurd h (by decide)
    · have h2 := h.2
      rw [String.lt_iff_toList_lt] at h2
      exact absurd h2 (by decide)

/-- C1, amended: the ranked output is ordered by descending occurrence
count, and within each count value the categories appear in the order the
counter first saw them (first occurrence in the flattened per-post
category lists), because most_common is a stable sort by count; the tie
order therefore follows the input iteration order, not the alphabet. -/
theorem C1_rank_descending_stable (scorer : String → ℚ) (posts : List Post) (n : Nat) :
    (rank_pipeline scorer posts n).Pairwise (fun a b => b.count ≤ a.count) ∧
    ∀ c : Nat, ∃ rest : List (String × Nat),
      (counterItems (all_categories (problemRows scorer posts))).filter (fun q => q.2 == c)
        = ((rank_pipeline scorer posts n).map (fun e => (e.category, e.count))).filter
            (fun q => q.2 == c) ++ rest := by
  have hmap : (rank_pipeline scorer posts n).map (fun e => (e.category, e.count))
      = most_common (counterItems (all_categories (problemRows scorer posts))) n :=
    extract_map_catcount _ _ _
  constructor
  · have hsorted : (List.insertionSort countGE
        (counterItems (all_categories (problemRows scorer posts)))).Pairwise countGE :=
      List.sorted_insertionSort countGE _
    have htake : (most_common (counterItems (all_categories (problemRows scorer posts))) n).Pairwise
        countGE :=
      List.Pairwise.sublist (List.take_sublist n _) hsorted
    rw [← hmap] at htake
    exact List.pairwise_map.mp htake
  · intro c
    refine ⟨(List.drop n (List.insertionSort countGE
      (counterItems (all_categories (problemRows scorer posts))))).filter (fun q => q.2 == c), ?_⟩
    have hp : ∀ a b : String × Nat, (a.2 == c) = true → (b.2 == c) = true → countGE a b := by
      intro a b ha hb
      have ha2 : a.2 = c := by simpa using ha
      have hb2 : b.2 = c := by simpa using hb
      show b.2 ≤ a.2
      rw [ha2, hb2]
    have hstable := filter_insertionSort_countGE (fun q => q.2 == c) hp
      (counterItems (all_categories (problemRows scorer posts)))
    rw [hmap, ← hstable]
    unfold most_common
    conv_lhs => rw [← List.take_append_drop n (List.insertionSort countGE
      (counterItems (all_categories (problemRows scorer posts))))]
    rw [List.filter_append]

/-- C9: the ranked result has exactly min(top_n, number of counted
categories) entries, its ranks are the consecutive 1-based positions, and
its category/count pairs are exactly the first top_n items of the sorted
counter: fewer than top_n categories yield all of them with ranks 1..k,
with no padding, and the function is total. -/
theorem C9_top_n_saturation (scorer : String → ℚ) (posts : List Post) (n : Nat) :
    (rank_pipeline scorer posts n).length
        = min n (counterItems (all_categories (problemRows scorer posts))).length ∧
    (rank_pipeline scorer posts n).map (fun e => e.rank)
        = List.range' 1 (rank_pipeline scorer posts n).length ∧
    (rank_pipeline scorer posts n).map (fun e => (e.category, e.count))
        = most_common (counterItems (all_categories (problemRows scorer posts))) n :=
  ⟨extract_length _ _ _, extract_map_rank _ _ _, extract_map_catcount _ _ _⟩

/-- C6: a category is assigned to a text iff one of its taxonomy keywords
is a case-insensitive substring of the text (raw containment); the
category list of one text never repeats a category, a text matching two
categories receives both, and in the flattened occurrence multiset every
post credits each of its categories exactly once (the count of a category
equals the number of problem posts whose category list contains it). -/
theorem C6_categorizer :
    (∀ s : String, ∀ c : String,
      c ∈ find_categories (some s)
        ↔ ∃ kws, (c, kws) ∈ problem_categories
            ∧ ∃ kw ∈ kws, strContains (lowerStr s) (lowerStr kw) = true) ∧
    (∀ t : Option String, (find_categories t).Nodup) ∧
    find_categories (some "withdraw is broken, cant withdraw my funds")
      = ["withdrawal", "deposit"] ∧
    (∀ scorer : String → ℚ, ∀ posts : List Post, ∀ c : String,
      (all_categories (problemRows scorer posts)).count c
        = (problemRows scorer posts).countP (fun r => decide (c ∈ r.problem_categories))) := by
  refine ⟨fun s c => ?_, find_categories_nodup, by decide,
    fun scorer posts c => count_all_categories (pipeline_rows_nodup scorer posts)⟩
  unfold find_categories
  constructor
  · intro h
    obtain ⟨ck, hckf, hck1⟩ := List.mem_map.mp h
    obtain ⟨hmem, hpred⟩ := List.mem_filter.mp hckf
    obtain ⟨kw, hkw, hsc⟩ := List.any_eq_true.mp hpred
    refine ⟨ck.2, ?_, kw, hkw, ?_⟩
    · subst hck1
      exact hmem
    · rw [keywords_lower ck hmem kw hkw]
      exact hsc
  · intro h
    obtain ⟨kws, hmem, kw, hkw, hsc⟩ := h
    refine List.mem_map.mpr ⟨(c, kws), List.mem_filter.mpr ⟨hmem, ?_⟩, rfl⟩
    refine List.any_eq_true.mpr ⟨kw, hkw, ?_⟩
    rw [keywords_lower (c, kws) hmem kw hkw] at hsc
    exact hsc

/-- C5: for a ranked category the sample complaints are the texts of at
most three rows drawn exactly from the rows carrying the category label
with negative sentiment label, listed in ascending compound order (most
negative first); when fewer than three qualify, all of them appear
(possibly none): the samples come from a permutation of the qualifying
set split into a sorted selection bounded by the remainder. -/
theorem C5_sample_selection (scorer : String → ℚ) (posts : List Post) (n : Nat) :
    ∀ e ∈ rank_pipeline scorer posts n,
      e.sample_complaints.length
          = min 3 (((problemRows scorer posts).filter
              (fun r => decide (e.category ∈ r.problem_categories))).filter
                (fun r => r.sentiment == "negative")).length ∧
      ∃ sel rest : List Row,
        e.sample_complaints = sel.map (fun r => r.full_text) ∧
        sel.Pairwise compoundLE ∧
        (sel ++ rest).Perm (((problemRows scorer posts).filter
            (fun r => decide (e.category ∈ r.problem_categories))).filter
              (fun r => r.sentiment == "negative")) ∧
        (∀ a ∈ sel, ∀ b ∈ rest, compoundLE a b) := by
  intro e he
  obtain ⟨ic, hic, rfl⟩ := mem_extract_elim he
  dsimp only
  constructor
  · rw [List.length_map]
    unfold nsmallest3
    rw [List.length_take, List.length_insertionSort]
  · refine ⟨(List.insertionSort compoundLE (((problemRows scorer posts).filter
        (fun r : Row => decide (ic.2.1 ∈ r.problem_categories))).filter
          (fun r : Row => r.sentiment == "negative"))).take 3,
      (List.insertionSort compoundLE (((problemRows scorer posts).filter
        (fun r : Row => decide (ic.2.1 ∈ r.problem_categories))).filter
          (fun r : Row => r.sentiment == "negative"))).drop 3, rfl, ?_, ?_, ?_⟩
    · exact List.Pairwise.sublist (List.take_sublist 3 _)
        (List.sorted_insertionSort compoundLE _)
    · rw [List.take_append_drop]
      exact List.perm_insertionSort compoundLE _
    · have hp : ((List.insertionSort compoundLE (((problemRows scorer posts).filter
          (fun r : Row => decide (ic.2.1 ∈ r.problem_categories))).filter
            (fun r : Row => r.sentiment == "negative"))).take 3
          ++ (List.insertionSort compoundLE (((problemRows scorer posts).filter
          (fun r : Row => decide (ic.2.1 ∈ r.problem_categories))).filter
            (fun r : Row => r.sentiment == "negative"))).drop 3).Pairwise compoundLE := by
        rw [List.take_append_drop]
        exact List.sorted_insertionSort compoundLE _
      exact (List.pairwise_append.mp hp).2.2

/-- C8: percentage is the entry count divided by the number of problem
posts (the problem-post denominator, not all posts) times 100, and
avg_sentiment is the sum of the compound scores over the problem rows
carrying the category label divided by the number of those rows, which is
positive (the mean is over a non-empty set). -/
theorem C8_percentage_avg (scorer : String → ℚ) (posts : List Post) (n : Nat) :
    ∀ e ∈ rank_pipeline scorer posts n,
      e.percentage = ((e.count : ℚ) / ((problemRows scorer posts).length : ℚ)) * 100 ∧
      e.avg_sentiment
        = ((((problemRows scorer posts).filter
              (fun r => decide (e.category ∈ r.problem_categories))).map
                (fun r => r.sentiment_compound)).sum)
          / ((((problemRows scorer posts).filter
              (fun r => decide (e.category ∈ r.problem_categories))).length : ℚ)) ∧
      0 < ((problemRows scorer posts).filter
              (fun r => decide (e.category ∈ r.problem_categories))).length := by
  intro e he
  obtain ⟨ic, hic, rfl⟩ := mem_extract_elim he
  refine ⟨rfl, rfl, ?_⟩
  have hq := mem_counterItems (mem_most_common (snd_mem_of_mem_enumFrom hic))
  obtain ⟨r, hr, hcr⟩ := List.mem_flatMap.mp hq.1
  exact List.length_pos_of_mem (List.mem_filter.mpr ⟨hr, by simpa using hcr⟩)

/-- C10: every ranked entry has count at least 1, its count equals the
number of problem rows whose category list contains the category (each
post credits a category at most once), its percentage lies in (0, 100],
and its platform breakdown counts sum to the count. -/
theorem C10_count_invariants (scorer : String → ℚ) (posts : List Post) (n : Nat) :
    ∀ e ∈ rank_pipeline scorer posts n,
      1 ≤ e.count ∧
      e.count = (problemRows scorer posts).countP
          (fun r => decide (e.category ∈ r.problem_categories)) ∧
      0 < e.percentage ∧ e.percentage ≤ 100 ∧
      (e.platforms.map (fun q => q.2)).sum = e.count := by
  intro e he
  obtain ⟨ic, hic, rfl⟩ := mem_extract_elim he
  have hq := mem_counterItems (mem_most_common (snd_mem_of_mem_enumFrom hic))
  have hcount : ic.2.2 = (all_categories (problemRows scorer posts)).count ic.2.1 := hq.2
  have hcountP : (all_categories (problemRows scorer posts)).count ic.2.1
      = (problemRows scorer posts).countP (fun r => decide (ic.2.1 ∈ r.problem_categories)) :=
    count_all_categories (pipeline_rows_nodup scorer posts)
  have h1 : 1 ≤ ic.2.2 := by
    rw [hcount]
    exact List.count_pos_iff.mpr hq.1
  have hle : ic.2.2 ≤ (problemRows scorer posts).length := by
    rw [hcount, hcountP]
    exact List.countP_le_length _
  have hlen : 0 < (problemRows scorer posts).length := lt_of_lt_of_le h1 hle
  have hq1 : (0:ℚ) < (ic.2.2 : ℚ) := by exact_mod_cast h1
  have hq2 : (0:ℚ) < ((problemRows scorer posts).length : ℚ) := by exact_mod_cast hlen
  have hq3 : (ic.2.2 : ℚ) ≤ ((problemRows scorer posts).length : ℚ) := by exact_mod_cast hle
  refine ⟨h1, hcount.trans hcountP, ?_, ?_, ?_⟩
  · show 0 < ((ic.2.2 : ℚ) / ((problemRows scorer posts).length : ℚ)) * 100
    exact mul_pos (div_pos hq1 hq2) (by norm_num)
  · show ((ic.2.2 : ℚ) / ((problemRows scorer posts).length : ℚ)) * 100 ≤ 100
    have h4 : (ic.2.2 : ℚ) / ((problemRows scorer posts).length : ℚ) ≤ 1 :=
      (div_le_one hq2).mpr hq3
    calc ((ic.2.2 : ℚ) / ((problemRows scorer posts).length : ℚ)) * 100
        ≤ 1 * 100 := mul_le_mul_of_nonneg_right h4 (by norm_num)
      _ = 100 := one_mul 100
  · show ((value_counts (((problemRows scorer posts).filter
        (fun r => decide (ic.2.1 ∈ r.problem_categories))).map (fun r => r.platform))).map
          (fun q => q.2)).sum = ic.2.2
    rw [value_counts_snd_sum, List.length_map, ← List.countP_eq_length_filter]
    exact (hcount.trans hcountP).symm

theorem wR_ne_nil : rank_pipeline wscorer wposts 5 ≠ [] := by
  intro h
  have h3 : (rank_pipeline wscorer wposts 5).length = 3 := rfl
  rw [h] at h3
  simp at h3

theorem C5_witness :
    (rank_pipeline wscorer wposts 5).head wR_ne_nil ∈ rank_pipeline wscorer wposts 5 ∧
    (((rank_pipeline wscorer wposts 5).head wR_ne_nil).sample_complaints.length
        = min 3 (((problemRows wscorer wposts).filter
            (fun r : Row => decide (((rank_pipeline wscorer wposts 5).head wR_ne_nil).category
              ∈ r.problem_categories))).filter
              (fun r : Row => r.sentiment == "negative")).length ∧
      ∃ sel rest : List Row,
        ((rank_pipeline wscorer wposts 5).head wR_ne_nil).sample_complaints
            = sel.map (fun r => r.full_text) ∧
        sel.Pairwise compoundLE ∧
        (sel ++ rest).Perm (((problemRows wscorer wposts).filter
            (fun r : Row => decide (((rank_pipeline wscorer wposts 5).head wR_ne_nil).category
              ∈ r.problem_categories))).filter
            (fun r : Row => r.sentiment == "negative")) ∧
        (∀ a ∈ sel, ∀ b ∈ rest, compoundLE a b)) :=
  ⟨List.head_mem wR_ne_nil,
   C5_sample_selection wscorer wposts 5 ((rank_pipeline wscorer wposts 5).head wR_ne_nil)
     (List.head_mem wR_ne_nil)⟩

theorem C8_witness :
    (rank_pipeline wscorer wposts 5).head wR_ne_nil ∈ rank_pipeline wscorer wposts 5 ∧
    (((rank_pipeline wscorer wposts 5).head wR_ne_nil).percentage
        = ((((rank_pipeline wscorer wposts 5).head wR_ne_nil).count : ℚ)
            / ((problemRows wscorer wposts).length : ℚ)) * 100 ∧
      ((rank_pipeline wscorer wposts 5).head wR_ne_nil).avg_sentiment
        = ((((problemRows wscorer wposts).filter
              (fun r : Row => decide (((rank_pipeline wscorer wposts 5).head wR_ne_nil).category
                ∈ r.problem_categories))).map (fun r => r.sentiment_compound)).sum)
          / ((((problemRows wscorer wposts).filter
              (fun r : Row => decide (((rank_pipeline wscorer wposts 5).head wR_ne_nil).category
                ∈ r.problem_categories))).length : ℚ)) ∧
      0 < ((problemRows wscorer wposts).filter
              (fun r : Row => decide (((rank_pipeline wscorer wposts 5).head wR_ne_nil).category
                ∈ r.problem_categories))).length) :=
  ⟨List.head_mem wR_ne_nil,
   C8_percentage_avg wscorer wposts 5 ((rank_pipeline wscorer wposts 5).head wR_ne_nil)
     (List.head_mem wR_ne_nil)⟩

theorem C10_witness :
    (rank_pipeline wscorer wposts 5).head wR_ne_nil ∈ rank_pipeline wscorer wposts 5 ∧
    (1 ≤ ((rank_pipeline wscorer wposts 5).head wR_ne_nil).count ∧
      ((rank_pipeline wscorer wposts 5).head wR_ne_nil).count
        = (problemRows wscorer wposts).countP
            (fun r : Row => decide (((rank_pipeline wscorer wposts 5).head wR_ne_nil).category
              ∈ r.problem_categories)) ∧
      0 < ((rank_pipeline wscorer wposts 5).head wR_ne_nil).percentage ∧
      ((rank_pipeline wscorer wposts 5).head wR_ne_nil).percentage ≤ 100 ∧
      ((((rank_pipeline wscorer wposts 5).head wR_ne_nil).platforms.map (fun q => q.2)).sum
        = ((rank_pipeline wscorer wposts 5).head wR_ne_nil).count)) :=
  ⟨List.head_mem wR_ne_nil,
   C10_count_invariants wscorer wposts 5 ((rank_pipeline wscorer wposts 5).head wR_ne_nil)
     (List.head_mem wR_ne_nil)⟩
